import Mathlib

/-!
Shallow embedding of `robustness/main.py` from the `robustness_rot`
repository: the arguments object, `setup_args`, `setup_store_with_metadata`
and the `main` dispatch, together with theorems settling the spec claims.

Python attribute values are modelled by `Val`; an unset argument field is
the Python value `None`, modelled by `Val.vnone`.  An arguments object is a
total map from field names to values (absent fields read as `None`, as the
`cox.utils.Parameters` wrapper over a dict behaves for the fields the code
touches).  Collaborator modules that are not part of the shown source
(`robustness.defaults`, `cox`, `git`, `train`, `model_utils`) are modelled
from the spec, as parameters or as definitions marked `Modelled from the
spec:` in their doc comments.
-/

namespace RobustnessRot

/-- A Python value as it appears in an arguments object:
`None`, a boolean, an integer, or a string. -/
inductive Val where
  | vnone : Val
  | vbool : Bool → Val
  | vint : Int → Val
  | vstr : String → Val
  deriving DecidableEq, Repr

/-- Python truthiness of a `Val` (`None`, `False`, `0` and `""` are falsy). -/
def truthy : Val → Bool
  | Val.vnone => false
  | Val.vbool b => b
  | Val.vint n => n != 0
  | Val.vstr s => s != ""

/-- An arguments object: a total map from field names to values; an unset
field maps to `Val.vnone`. -/
def Args : Type := String → Val

instance : CoeFun Args (fun _ => String → Val) := ⟨fun a => a⟩

/-- Functional update of one field of an arguments object
(`args.field = v` in Python). -/
def Args.setf (a : Args) (f : String) (v : Val) : Args :=
  fun g => if g = f then v else a g

/-- Modelled from the spec: `cox.utils.override_json` (not under `src/`) —
overlay values from a JSON config file onto the arguments object, only
overriding fields that are unset. -/
def override_json (args : Args) (config : String → Val) : Args :=
  fun f => if args f = Val.vnone then config f else args f

/-- Modelled from the spec: `robustness.defaults.check_and_fill_args`
(not under `src/`) — fill each unset field belonging to the given option
group with its dataset-specific default. -/
def check_and_fill_args (args : Args) (group : List String)
    (dsDefault : String → Val) : Args :=
  fun f => if f ∈ group ∧ args f = Val.vnone then dsDefault f else args f

/-- Modelled from the spec: the `robustness.defaults` module (not under
`src/`) — the four named option groups and, for each dataset class, the
table of dataset-specific default values. -/
structure DefaultsEnv where
  CONFIG_ARGS : List String
  TRAINING_ARGS : List String
  PGD_ARGS : List String
  MODEL_LOADER_ARGS : List String
  defaultOf : Val → String → Val

/-- Stage 1 of `setup_args`: `if args.config_path: args =
cox.utils.override_json(args, args.config_path)`.  `configOf` maps a
config-file path to the field map read from that JSON file (the filesystem
is a parameter of the embedding). -/
def argsAfterConfig (configOf : Val → String → Val) (args : Args) : Args :=
  if truthy (args "config_path") then
    override_json args (configOf (args "config_path"))
  else args

/-- The dataset class looked up by `setup_args`
(`ds_class = DATASETS[args.dataset]`), keying the defaults table. -/
def dsOf (configOf : Val → String → Val) (args : Args) : Val :=
  argsAfterConfig configOf args "dataset"

/-- Stage 2 of `setup_args`: fill the general-config group. -/
def argsStage2 (env : DefaultsEnv) (configOf : Val → String → Val)
    (args : Args) : Args :=
  check_and_fill_args (argsAfterConfig configOf args) env.CONFIG_ARGS
    (env.defaultOf (dsOf configOf args))

/-- Stage 3 of `setup_args`: fill the training group, unless the run is
evaluation-only (`if not args.eval_only`). -/
def argsStage3 (env : DefaultsEnv) (configOf : Val → String → Val)
    (args : Args) : Args :=
  if truthy (argsStage2 env configOf args "eval_only") then
    argsStage2 env configOf args
  else
    check_and_fill_args (argsStage2 env configOf args) env.TRAINING_ARGS
      (env.defaultOf (dsOf configOf args))

/-- Stage 4 of `setup_args`: fill the adversarial/PGD group when
`args.adv_train or args.adv_eval`. -/
def argsStage4 (env : DefaultsEnv) (configOf : Val → String → Val)
    (args : Args) : Args :=
  if truthy (argsStage3 env configOf args "adv_train") ||
      truthy (argsStage3 env configOf args "adv_eval") then
    check_and_fill_args (argsStage3 env configOf args) env.PGD_ARGS
      (env.defaultOf (dsOf configOf args))
  else
    argsStage3 env configOf args

/-- The fully resolved arguments object produced by `setup_args` just
before its trailing sanity check: stage 4 followed by the unconditional
model-loading group fill. -/
def resolvedArgs (env : DefaultsEnv) (configOf : Val → String → Val)
    (args : Args) : Args :=
  check_and_fill_args (argsStage4 env configOf args) env.MODEL_LOADER_ARGS
    (env.defaultOf (dsOf configOf args))

/-- Embedding of `setup_args` from `robustness/main.py`: the staged
overlay-and-fill pipeline, then the trailing
`if args.eval_only: assert args.resume is not None` modelled by the
`Except.error` branch. -/
def setup_args (env : DefaultsEnv) (configOf : Val → String → Val)
    (args : Args) : Except String Args :=
  if truthy (resolvedArgs env configOf args "eval_only") ∧
      resolvedArgs env configOf args "resume" = Val.vnone then
    Except.error "Must provide a resume path if only evaluating"
  else
    Except.ok (resolvedArgs env configOf args)

/-- The type tag of a `Val`, used for schema inference. -/
inductive ValType where
  | noneT : ValType
  | boolT : ValType
  | intT : ValType
  | strT : ValType
  deriving DecidableEq, Repr

/-- Type tag of a value. -/
def Val.typeTag : Val → ValType
  | Val.vnone => ValType.noneT
  | Val.vbool _ => ValType.boolT
  | Val.vint _ => ValType.intT
  | Val.vstr _ => ValType.strT

/-- Modelled from the spec: `cox.store.schema_from_dict` (not under `src/`)
— a table schema inferred from the field types of the argument mapping. -/
def schema_from_dict (a : Args) : String → ValType :=
  fun f => (a f).typeTag

/-- Modelled from the spec: a table of a `cox` store — a schema plus an
append-only list of rows (each row a field map). -/
structure Table where
  schema : String → ValType
  rows : List Args

/-- Modelled from the spec: `cox.store.Store` (not under `src/`) — a
structured experiment store rooted at an output directory under an
experiment name, holding named tables. -/
structure Store where
  out_dir : Val
  exp_name : Val
  tables : List (String × Table)

/-- Modelled from the spec: `cox.store.Store(out_dir, exp_name)` — a newly
created store with no tables. -/
def Store.new (out_dir exp_name : Val) : Store :=
  { out_dir := out_dir, exp_name := exp_name, tables := [] }

/-- Modelled from the spec: `store.add_table(name, schema)` — register an
empty table under the given name. -/
def Store.add_table (s : Store) (name : String) (schema : String → ValType) :
    Store :=
  { s with tables := s.tables ++ [(name, { schema := schema, rows := [] })] }

/-- Modelled from the spec: `store[name].append_row(row)` — append one row
to the named table. -/
def Store.append_row (s : Store) (name : String) (row : Args) : Store :=
  { s with
    tables := s.tables.map (fun p =>
      if p.1 = name then (p.1, { p.2 with rows := p.2.rows ++ [row] }) else p) }

/-- Embedding of `setup_store_with_metadata` from `robustness/main.py`.
`gitSha` models the `git.Repo(...).head.object.hexsha` lookup over the
enclosing package directory: `some sha` when source-control metadata is
discoverable, `none` when `git.exc.InvalidGitRepositoryError` is raised, in
which case the static `__version__` string (`staticVersion`) is used.
Python mutates `args` in place (`args.version = version`); the embedding
returns the mutated arguments object alongside the store. -/
def setup_store_with_metadata (gitSha : Option String)
    (staticVersion : String) (args : Args) : Store × Args :=
  let version : String :=
    match gitSha with
    | some sha => sha
    | none => staticVersion
  let args2 : Args := Args.setf args "version" (Val.vstr version)
  let store := Store.new (args2 "out_dir") (args2 "exp_name")
  let args_dict : Args := args2
  let schema := schema_from_dict args_dict
  let store := store.add_table "metadata" schema
  let store := store.append_row "metadata" args_dict
  (store, args2)

/-- Errors raised by `main`: `NotImplementedError(msg)`. -/
inductive PyError where
  | notImplemented (msg : String) : PyError
  deriving DecidableEq, Repr

/-- The resampling mode chosen from the `bicubic` flag
(`Image.BICUBIC` vs `Image.BILINEAR`). -/
inductive Resample where
  | bicubic : Resample
  | bilinear : Resample
  deriving DecidableEq, Repr

/-- A model as returned by `make_and_restore_model`: either a plain model
or one saved in a multi-device (`DataParallel`) wrapped form, which exposes
an inner `module` attribute. -/
inductive Model where
  | base (id : Nat) : Model
  | dataParallel (inner : Model) : Model
  deriving DecidableEq, Repr

/-- `'module' in dir(model)`: true exactly for wrapped models. -/
def Model.hasModuleAttr : Model → Bool
  | Model.dataParallel _ => true
  | Model.base _ => false

/-- `model.module`, total on the embedding (only read under the
`hasModuleAttr` guard, as in the source). -/
def Model.moduleAttr : Model → Model
  | Model.dataParallel m => m
  | Model.base i => Model.base i

/-- Abstract token for a transform produced by `get_rot_transforms`. -/
abbrev Transform : Type := Nat

/-- Abstract token for a data loader. -/
abbrev Loader : Type := Nat

/-- Abstract token for a restored checkpoint object. -/
abbrev Checkpoint : Type := Nat

/-- Abstract token for the value returned by `eval_model`. -/
abbrev EvalOutcome : Type := Nat

/-- The dataset object built by `main`: the `breeds` branch builds a
`CustomImageNet` with a custom grouping and the train/test transforms (its
hardcoded float normalization constants lie outside the value domain of
this embedding and are not observed by any claim); the `binary_mnist`
branch builds a `BinaryMNIST` from the data path and transforms. -/
inductive Dataset where
  | customImageNet (data_path : String) (custom_grouping : List (List Nat))
      (transform_train transform_test : Transform) : Dataset
  | binaryMNIST (data_path : String)
      (transform_train transform_test : Transform) : Dataset
  deriving DecidableEq, Repr

/-- The collaborator routines `main` calls, none of which are under `src/`:
each is modelled from the spec as an abstract parameter of the embedding.
`breeds_subclasses` stands for `subclass_split[0]` of
`BreedsDatasetGenerator(INFO_DIR).get_superclasses(level=3,
Nsubclasses=None, split=None, ancestor=None, balanced=True)`. -/
structure MainEnv where
  expandvars : Val → String
  get_rot_transforms : Val → Val → Resample → Bool → Val → Transform × Transform
  breeds_subclasses : List (List Nat)
  make_loaders : Dataset → Val → Val → Bool → Loader × Loader
  prefetch : Loader → Loader
  make_and_restore_model : Val → Dataset → Val → Model × Option Checkpoint
  eval_model : Args → Model → Loader → Option Store → EvalOutcome
  train_model : Args → Model → Loader × Loader → Option Store →
    Option Checkpoint → Model

/-- An observable call `main` makes into the training/evaluation routines,
recording the model (and checkpoint) actually passed. -/
inductive Event where
  | evalModelCall (model : Model) (val_loader : Loader) : Event
  | trainModelCall (model : Model) (checkpoint : Option Checkpoint) : Event
  deriving DecidableEq, Repr

/-- The model an event passes to its routine. -/
def Event.modelOf : Event → Model
  | Event.evalModelCall m _ => m
  | Event.trainModelCall m _ => m

/-- What `main` returns: the result of `eval_model`, or the trained model
from `train_model`. -/
inductive RunResult where
  | evalOutcome (r : EvalOutcome) : RunResult
  | trainedModel (m : Model) : RunResult
  deriving DecidableEq, Repr

/-- The task dispatch of `main`, factored out: the dataset object built for
the task, or `none` for an unsupported task name. -/
def datasetFor (env : MainEnv) (args : Args) : Option Dataset :=
  let data_path := env.expandvars (args "data")
  let bicubic_resample :=
    if truthy (args "bicubic") then Resample.bicubic else Resample.bilinear
  let transforms := env.get_rot_transforms (args "num_rots")
    (args "num_val_rots") bicubic_resample (truthy (args "make_circ"))
    (args "task")
  if args "task" = Val.vstr "breeds" then
    some (Dataset.customImageNet data_path env.breeds_subclasses
      transforms.1 transforms.2)
  else if args "task" = Val.vstr "binary_mnist" then
    some (Dataset.binaryMNIST data_path transforms.1 transforms.2)
  else
    none

/-- Embedding of `main` from `robustness/main.py`.  Returns the run result
together with the list of train/eval routine calls made, or the raised
error.  The `NotImplementedError` message is the literal source string
`'No task {args.task}.'` — the source line has no f-string prefix, so the
braces are not interpolated. -/
def main (env : MainEnv) (args : Args) (store : Option Store) :
    Except PyError (RunResult × List Event) :=
  match datasetFor env args with
  | none =>
      Except.error (PyError.notImplemented "No task \x7bargs.task\x7d.")
  | some dataset =>
      let ls := env.make_loaders dataset (args "workers") (args "batch_size")
        (truthy (args "data_aug"))
      let train_loader := env.prefetch ls.1
      let val_loader := env.prefetch ls.2
      let loaders := (train_loader, val_loader)
      let mc := env.make_and_restore_model (args "arch") dataset (args "resume")
      let model0 := mc.1
      let checkpoint := mc.2
      let model :=
        if model0.hasModuleAttr then model0.moduleAttr else model0
      if truthy (args "eval_only") then
        Except.ok (RunResult.evalOutcome (env.eval_model args model val_loader store),
          [Event.evalModelCall model val_loader])
      else
        let checkpoint2 :=
          if truthy (args "resume_optimizer") then checkpoint else none
        Except.ok (RunResult.trainedModel
            (env.train_model args model loaders store checkpoint2),
          [Event.trainModelCall model checkpoint2])

/-- The `(model, checkpoint)` pair `make_and_restore_model` returns inside
`main`, for stating the claims. -/
def restoredPair (env : MainEnv) (args : Args) (ds : Dataset) :
    Model × Option Checkpoint :=
  env.make_and_restore_model (args "arch") ds (args "resume")

/-- The model `main` actually uses: the restored model, unwrapped when it
exposes an inner `module` attribute. -/
def usedModel (env : MainEnv) (args : Args) (ds : Dataset) : Model :=
  let m := (restoredPair env args ds).1
  if m.hasModuleAttr then m.moduleAttr else m

/-- The prefetch-wrapped `(train_loader, val_loader)` pair built by `main`,
for stating the claims. -/
def loadersFor (env : MainEnv) (args : Args) (ds : Dataset) :
    Loader × Loader :=
  let ls := env.make_loaders ds (args "workers") (args "batch_size")
    (truthy (args "data_aug"))
  (env.prefetch ls.1, env.prefetch ls.2)

/-- `needle` is a prefix of `hay` (on character lists); used to state that
an error message does or does not mention a given substring. -/
def leadsChars : List Char → List Char → Bool
  | [], _ => true
  | _ :: _, [] => false
  | a :: as, b :: bs => a == b && leadsChars as bs

/-- `needle` occurs contiguously inside `hay` (on character lists). -/
def occursIn (needle : List Char) : List Char → Bool
  | [] => leadsChars needle []
  | b :: bs => leadsChars needle (b :: bs) || occursIn needle bs

/-! ### Concrete fixtures for witness evaluations -/

/-- A small representative defaults environment for concrete evaluations:
four disjoint option groups and one dataset-independent default table. -/
def envW : DefaultsEnv where
  CONFIG_ARGS := ["out_dir", "exp_name"]
  TRAINING_ARGS := ["epochs", "lr"]
  PGD_ARGS := ["eps", "attack_steps"]
  MODEL_LOADER_ARGS := ["arch", "batch_size"]
  defaultOf := fun _ f =>
    if f = "out_dir" then Val.vstr "/tmp/out"
    else if f = "exp_name" then Val.vstr "exp0"
    else if f = "epochs" then Val.vint 150
    else if f = "lr" then Val.vint 1
    else if f = "eps" then Val.vint 8
    else if f = "attack_steps" then Val.vint 7
    else if f = "arch" then Val.vstr "resnet50"
    else if f = "batch_size" then Val.vint 128
    else Val.vnone

/-- A config-file reader that finds no value anywhere (no JSON overlay). -/
def cfgW : Val → String → Val := fun _ _ => Val.vnone

/-- Arguments requesting evaluation-only without a resume path. -/
def argsEvalNoResume : Args := fun f =>
  if f = "dataset" then Val.vstr "cifar"
  else if f = "eval_only" then Val.vbool true
  else Val.vnone

/-- Arguments for a plain training run: flag fields set explicitly,
`lr` provided explicitly, the remaining group fields unset. -/
def argsTrainW : Args := fun f =>
  if f = "dataset" then Val.vstr "cifar"
  else if f = "eval_only" then Val.vbool false
  else if f = "adv_train" then Val.vbool false
  else if f = "adv_eval" then Val.vbool false
  else if f = "lr" then Val.vint 3
  else Val.vnone

/-- A concrete collaborator environment for `main`, whose restored model is
saved in multi-device wrapped form. -/
def envMainW : MainEnv where
  expandvars := fun v => match v with | Val.vstr s => s | _ => ""
  get_rot_transforms := fun _ _ _ _ _ => (0, 1)
  breeds_subclasses := [[0, 1], [2, 3]]
  make_loaders := fun _ _ _ _ => (10, 11)
  prefetch := fun l => l + 100
  make_and_restore_model := fun _ _ _ =>
    (Model.dataParallel (Model.base 3), some 7)
  eval_model := fun _ _ _ _ => 42
  train_model := fun _ m _ _ _ => m

/-- Arguments whose task name is not one of the two supported tasks. -/
def argsTaskUnknown : Args := fun f =>
  if f = "task" then Val.vstr "rotated_cifar" else Val.vnone

/-- Arguments for an evaluation-only `binary_mnist` run with a resume
path. -/
def argsEvalRun : Args := fun f =>
  if f = "task" then Val.vstr "binary_mnist"
  else if f = "eval_only" then Val.vbool true
  else if f = "resume" then Val.vstr "ckpt.pt"
  else if f = "data" then Val.vstr "/tmp/data"
  else Val.vnone

/-- Arguments for a training `binary_mnist` run with
`resume_optimizer=False`. -/
def argsTrainRun : Args := fun f =>
  if f = "task" then Val.vstr "binary_mnist"
  else if f = "eval_only" then Val.vbool false
  else if f = "resume_optimizer" then Val.vbool false
  else if f = "data" then Val.vstr "/tmp/data"
  else Val.vnone

/-! ### Lemmas about the overlay and fill combinators -/

theorem truthy_vnone_eq_false : truthy Val.vnone = false := rfl

theorem ne_vnone_of_truthy (v : Val) (h : truthy v = true) : v ≠ Val.vnone :=
  fun hc => by rw [hc] at h; exact Bool.noConfusion h

theorem override_json_eq_of_ne (a : Args) (cfg : String → Val) (f : String)
    (h : a f ≠ Val.vnone) : override_json a cfg f = a f := by
  unfold override_json
  exact if_neg h

theorem override_json_cases (a : Args) (cfg : String → Val) (f : String) :
    override_json a cfg f = a f ∨ override_json a cfg f = cfg f := by
  unfold override_json
  by_cases hc : a f = Val.vnone
  · exact Or.inr (if_pos hc)
  · exact Or.inl (if_neg hc)

theorem check_and_fill_args_eq_of_ne (a : Args) (g : List String)
    (t : String → Val) (f : String) (h : a f ≠ Val.vnone) :
    check_and_fill_args a g t f = a f := by
  unfold check_and_fill_args
  exact if_neg (fun hc => h hc.2)

theorem check_and_fill_args_eq_of_not_mem (a : Args) (g : List String)
    (t : String → Val) (f : String) (h : f ∉ g) :
    check_and_fill_args a g t f = a f := by
  unfold check_and_fill_args
  exact if_neg (fun hc => h hc.1)

theorem check_and_fill_args_eq_of_mem (a : Args) (g : List String)
    (t : String → Val) (f : String) (hm : f ∈ g) (hn : a f = Val.vnone) :
    check_and_fill_args a g t f = t f := by
  unfold check_and_fill_args
  exact if_pos ⟨hm, hn⟩

theorem check_and_fill_args_cases (a : Args) (g : List String)
    (t : String → Val) (f : String) :
    check_and_fill_args a g t f = a f ∨ check_and_fill_args a g t f = t f := by
  unfold check_and_fill_args
  by_cases hc : f ∈ g ∧ a f = Val.vnone
  · exact Or.inr (if_pos hc)
  · exact Or.inl (if_neg hc)

theorem check_and_fill_args_fix (a : Args) (g : List String)
    (t : String → Val) (f : String) (h : a f = t f) :
    check_and_fill_args a g t f = t f := by
  rcases check_and_fill_args_cases a g t f with h2 | h2
  · rw [h2, h]
  · exact h2

/-! ### Lemmas about the `setup_args` stages -/

theorem argsAfterConfig_eq_of_ne (cfg : Val → String → Val) (args : Args)
    (f : String) (h : args f ≠ Val.vnone) :
    argsAfterConfig cfg args f = args f := by
  unfold argsAfterConfig
  by_cases hc : truthy (args "config_path") = true
  · rw [if_pos hc]; exact override_json_eq_of_ne args _ f h
  · rw [if_neg hc]

theorem argsStage2_eq_of_ne (env : DefaultsEnv) (cfg : Val → String → Val)
    (args : Args) (f : String) (h : args f ≠ Val.vnone) :
    argsStage2 env cfg args f = args f := by
  unfold argsStage2
  rw [check_and_fill_args_eq_of_ne _ _ _ _
    (by rw [argsAfterConfig_eq_of_ne cfg args f h]; exact h)]
  exact argsAfterConfig_eq_of_ne cfg args f h

theorem argsStage3_eq_of_ne (env : DefaultsEnv) (cfg : Val → String → Val)
    (args : Args) (f : String) (h : args f ≠ Val.vnone) :
    argsStage3 env cfg args f = args f := by
  unfold argsStage3
  by_cases hc : truthy (argsStage2 env cfg args "eval_only") = true
  · rw [if_pos hc]; exact argsStage2_eq_of_ne env cfg args f h
  · rw [if_neg hc]
    rw [check_and_fill_args_eq_of_ne _ _ _ _
      (by rw [argsStage2_eq_of_ne env cfg args f h]; exact h)]
    exact argsStage2_eq_of_ne env cfg args f h

theorem argsStage4_eq_of_ne (env : DefaultsEnv) (cfg : Val → String → Val)
    (args : Args) (f : String) (h : args f ≠ Val.vnone) :
    argsStage4 env cfg args f = args f := by
  unfold argsStage4
  by_cases hc : (truthy (argsStage3 env cfg args "adv_train") ||
      truthy (argsStage3 env cfg args "adv_eval")) = true
  · rw [if_pos hc]
    rw [check_and_fill_args_eq_of_ne _ _ _ _
      (by rw [argsStage3_eq_of_ne env cfg args f h]; exact h)]
    exact argsStage3_eq_of_ne env cfg args f h
  · rw [if_neg hc]; exact argsStage3_eq_of_ne env cfg args f h

theorem resolvedArgs_eq_of_ne (env : DefaultsEnv) (cfg : Val → String → Val)
    (args : Args) (f : String) (h : args f ≠ Val.vnone) :
    resolvedArgs env cfg args f = args f := by
  unfold resolvedArgs
  rw [check_and_fill_args_eq_of_ne _ _ _ _
    (by rw [argsStage4_eq_of_ne env cfg args f h]; exact h)]
  exact argsStage4_eq_of_ne env cfg args f h

theorem argsAfterConfig_cases (cfg : Val → String → Val) (args : Args)
    (f : String) :
    argsAfterConfig cfg args f = args f ∨
    argsAfterConfig cfg args f = cfg (args "config_path") f := by
  unfold argsAfterConfig
  by_cases hc : truthy (args "config_path") = true
  · rw [if_pos hc]; exact override_json_cases args _ f
  · rw [if_neg hc]; exact Or.inl rfl

theorem resolvedArgs_cases (env : DefaultsEnv) (cfg : Val → String → Val)
    (args : Args) (f : String) :
    resolvedArgs env cfg args f = args f ∨
    resolvedArgs env cfg args f = cfg (args "config_path") f ∨
    resolvedArgs env cfg args f = env.defaultOf (dsOf cfg args) f := by
  have h1 := argsAfterConfig_cases cfg args f
  have h2 : argsStage2 env cfg args f = argsAfterConfig cfg args f ∨
      argsStage2 env cfg args f = env.defaultOf (dsOf cfg args) f :=
    check_and_fill_args_cases _ _ _ f
  have h3 : argsStage3 env cfg args f = argsStage2 env cfg args f ∨
      argsStage3 env cfg args f = env.defaultOf (dsOf cfg args) f := by
    unfold argsStage3
    by_cases hc : truthy (argsStage2 env cfg args "eval_only") = true
    · rw [if_pos hc]; exact Or.inl rfl
    · rw [if_neg hc]; exact check_and_fill_args_cases _ _ _ f
  have h4 : argsStage4 env cfg args f = argsStage3 env cfg args f ∨
      argsStage4 env cfg args f = env.defaultOf (dsOf cfg args) f := by
    unfold argsStage4
    by_cases hc : (truthy (argsStage3 env cfg args "adv_train") ||
        truthy (argsStage3 env cfg args "adv_eval")) = true
    · rw [if_pos hc]; exact check_and_fill_args_cases _ _ _ f
    · rw [if_neg hc]; exact Or.inl rfl
  have h5 : resolvedArgs env cfg args f = argsStage4 env cfg args f ∨
      resolvedArgs env cfg args f = env.defaultOf (dsOf cfg args) f :=
    check_and_fill_args_cases _ _ _ f
  rcases h5 with h5 | h5
  · rcases h4 with h4 | h4
    · rcases h3 with h3 | h3
      · rcases h2 with h2 | h2
        · rcases h1 with h1 | h1
          · exact Or.inl (by rw [h5, h4, h3, h2, h1])
          · exact Or.inr (Or.inl (by rw [h5, h4, h3, h2, h1]))
        · exact Or.inr (Or.inr (by rw [h5, h4, h3, h2]))
      · exact Or.inr (Or.inr (by rw [h5, h4, h3]))
    · exact Or.inr (Or.inr (by rw [h5, h4]))
  · exact Or.inr (Or.inr h5)

theorem argsAfterConfig_eq_self (cfg : Val → String → Val) (args : Args)
    (hcp : args "config_path" = Val.vnone) :
    argsAfterConfig cfg args = args := by
  unfold argsAfterConfig
  rw [hcp, truthy_vnone_eq_false]
  rfl

theorem dsOf_eq_dataset (cfg : Val → String → Val) (args : Args)
    (hcp : args "config_path" = Val.vnone) :
    dsOf cfg args = args "dataset" := by
  unfold dsOf
  rw [argsAfterConfig_eq_self cfg args hcp]

theorem setup_args_ok_eq (env : DefaultsEnv) (cfg : Val → String → Val)
    (args res : Args) (hok : setup_args env cfg args = Except.ok res) :
    res = resolvedArgs env cfg args := by
  unfold setup_args at hok
  by_cases hc : truthy (resolvedArgs env cfg args "eval_only") = true ∧
      resolvedArgs env cfg args "resume" = Val.vnone
  · rw [if_pos hc] at hok; exact Except.noConfusion hok
  · rw [if_neg hc] at hok
    injection hok with h
    exact h.symm

theorem resolvedArgs_config_fill (env : DefaultsEnv)
    (cfg : Val → String → Val) (args : Args) (f : String)
    (hcp : args "config_path" = Val.vnone) (hf : f ∈ env.CONFIG_ARGS)
    (hn : args f = Val.vnone) :
    resolvedArgs env cfg args f = env.defaultOf (args "dataset") f := by
  rw [← dsOf_eq_dataset cfg args hcp]
  have e2 : argsStage2 env cfg args f = env.defaultOf (dsOf cfg args) f := by
    unfold argsStage2
    rw [argsAfterConfig_eq_self cfg args hcp]
    exact check_and_fill_args_eq_of_mem args _ _ f hf hn
  have e3 : argsStage3 env cfg args f = env.defaultOf (dsOf cfg args) f := by
    unfold argsStage3
    by_cases hc : truthy (argsStage2 env cfg args "eval_only") = true
    · rw [if_pos hc]; exact e2
    · rw [if_neg hc]; exact check_and_fill_args_fix _ _ _ f e2
  have e4 : argsStage4 env cfg args f = env.defaultOf (dsOf cfg args) f := by
    unfold argsStage4
    by_cases hc : (truthy (argsStage3 env cfg args "adv_train") ||
        truthy (argsStage3 env cfg args "adv_eval")) = true
    · rw [if_pos hc]; exact check_and_fill_args_fix _ _ _ f e3
    · rw [if_neg hc]; exact e3
  exact check_and_fill_args_fix _ _ _ f e4

theorem resolvedArgs_model_loader_fill (env : DefaultsEnv)
    (cfg : Val → String → Val) (args : Args) (f : String)
    (hcp : args "config_path" = Val.vnone) (hf : f ∈ env.MODEL_LOADER_ARGS)
    (hn : args f = Val.vnone) :
    resolvedArgs env cfg args f = env.defaultOf (args "dataset") f := by
  rw [← dsOf_eq_dataset cfg args hcp]
  have i2 : argsStage2 env cfg args f = Val.vnone ∨
      argsStage2 env cfg args f = env.defaultOf (dsOf cfg args) f := by
    rcases check_and_fill_args_cases (argsAfterConfig cfg args)
      env.CONFIG_ARGS (env.defaultOf (dsOf cfg args)) f with h | h
    · exact Or.inl (by
        unfold argsStage2
        rw [h, argsAfterConfig_eq_self cfg args hcp]
        exact hn)
    · exact Or.inr h
  have i3 : argsStage3 env cfg args f = Val.vnone ∨
      argsStage3 env cfg args f = env.defaultOf (dsOf cfg args) f := by
    unfold argsStage3
    by_cases hc : truthy (argsStage2 env cfg args "eval_only") = true
    · rw [if_pos hc]; exact i2
    · rw [if_neg hc]
      rcases i2 with h | h
      · rcases check_and_fill_args_cases (argsStage2 env cfg args)
          env.TRAINING_ARGS (env.defaultOf (dsOf cfg args)) f with h2 | h2
        · exact Or.inl (h2.trans h)
        · exact Or.inr h2
      · exact Or.inr (check_and_fill_args_fix _ _ _ f h)
  have i4 : argsStage4 env cfg args f = Val.vnone ∨
      argsStage4 env cfg args f = env.defaultOf (dsOf cfg args) f := by
    unfold argsStage4
    by_cases hc : (truthy (argsStage3 env cfg args "adv_train") ||
        truthy (argsStage3 env cfg args "adv_eval")) = true
    · rw [if_pos hc]
      rcases i3 with h | h
      · rcases check_and_fill_args_cases (argsStage3 env cfg args)
          env.PGD_ARGS (env.defaultOf (dsOf cfg args)) f with h2 | h2
        · exact Or.inl (h2.trans h)
        · exact Or.inr h2
      · exact Or.inr (check_and_fill_args_fix _ _ _ f h)
    · rw [if_neg hc]; exact i3
  rcases i4 with h | h
  · exact check_and_fill_args_eq_of_mem _ _ _ f hf h
  · exact check_and_fill_args_fix _ _ _ f h

theorem resolvedArgs_training_fill (env : DefaultsEnv)
    (cfg : Val → String → Val) (args : Args) (f : String)
    (hcp : args "config_path" = Val.vnone)
    (heo : args "eval_only" ≠ Val.vnone)
    (hf : f ∈ env.TRAINING_ARGS) (hnc : f ∉ env.CONFIG_ARGS)
    (hnp : f ∉ env.PGD_ARGS) (hnm : f ∉ env.MODEL_LOADER_ARGS)
    (hn : args f = Val.vnone) :
    resolvedArgs env cfg args f =
      if truthy (args "eval_only") = true then Val.vnone
      else env.defaultOf (args "dataset") f := by
  have i2 : argsStage2 env cfg args f = Val.vnone := by
    unfold argsStage2
    rw [check_and_fill_args_eq_of_not_mem _ _ _ f hnc,
      argsAfterConfig_eq_self cfg args hcp]
    exact hn
  have hcond : truthy (argsStage2 env cfg args "eval_only") =
      truthy (args "eval_only") := by
    rw [argsStage2_eq_of_ne env cfg args _ heo]
  by_cases hev : truthy (args "eval_only") = true
  · rw [if_pos hev]
    have e3 : argsStage3 env cfg args f = Val.vnone := by
      unfold argsStage3
      rw [hcond, if_pos hev]
      exact i2
    have e4 : argsStage4 env cfg args f = Val.vnone := by
      unfold argsStage4
      by_cases hc : (truthy (argsStage3 env cfg args "adv_train") ||
          truthy (argsStage3 env cfg args "adv_eval")) = true
      · rw [if_pos hc, check_and_fill_args_eq_of_not_mem _ _ _ f hnp]; exact e3
      · rw [if_neg hc]; exact e3
    unfold resolvedArgs
    rw [check_and_fill_args_eq_of_not_mem _ _ _ f hnm]
    exact e4
  · rw [if_neg hev, ← dsOf_eq_dataset cfg args hcp]
    have e3 : argsStage3 env cfg args f = env.defaultOf (dsOf cfg args) f := by
      unfold argsStage3
      rw [hcond, if_neg hev]
      exact check_and_fill_args_eq_of_mem _ _ _ f hf i2
    have e4 : argsStage4 env cfg args f = env.defaultOf (dsOf cfg args) f := by
      unfold argsStage4
      by_cases hc : (truthy (argsStage3 env cfg args "adv_train") ||
          truthy (argsStage3 env cfg args "adv_eval")) = true
      · rw [if_pos hc, check_and_fill_args_eq_of_not_mem _ _ _ f hnp]; exact e3
      · rw [if_neg hc]; exact e3
    unfold resolvedArgs
    rw [check_and_fill_args_eq_of_not_mem _ _ _ f hnm]
    exact e4

theorem resolvedArgs_pgd_fill (env : DefaultsEnv)
    (cfg : Val → String → Val) (args : Args) (f : String)
    (hcp : args "config_path" = Val.vnone)
    (hat : args "adv_train" ≠ Val.vnone)
    (hae : args "adv_eval" ≠ Val.vnone)
    (hf : f ∈ env.PGD_ARGS) (hnc : f ∉ env.CONFIG_ARGS)
    (hnt : f ∉ env.TRAINING_ARGS) (hnm : f ∉ env.MODEL_LOADER_ARGS)
    (hn : args f = Val.vnone) :
    resolvedArgs env cfg args f =
      if (truthy (args "adv_train") || truthy (args "adv_eval")) = true
      then env.defaultOf (args "dataset") f
      else Val.vnone := by
  have i2 : argsStage2 env cfg args f = Val.vnone := by
    unfold argsStage2
    rw [check_and_fill_args_eq_of_not_mem _ _ _ f hnc,
      argsAfterConfig_eq_self cfg args hcp]
    exact hn
  have i3 : argsStage3 env cfg args f = Val.vnone := by
    unfold argsStage3
    by_cases hc : truthy (argsStage2 env cfg args "eval_only") = true
    · rw [if_pos hc]; exact i2
    · rw [if_neg hc, check_and_fill_args_eq_of_not_mem _ _ _ f hnt]; exact i2
  have hcond : (truthy (argsStage3 env cfg args "adv_train") ||
      truthy (argsStage3 env cfg args "adv_eval")) =
      (truthy (args "adv_train") || truthy (args "adv_eval")) := by
    rw [argsStage3_eq_of_ne env cfg args _ hat,
      argsStage3_eq_of_ne env cfg args _ hae]
  by_cases hadv : (truthy (args "adv_train") || truthy (args "adv_eval")) = true
  · rw [if_pos hadv, ← dsOf_eq_dataset cfg args hcp]
    have e4 : argsStage4 env cfg args f = env.defaultOf (dsOf cfg args) f := by
      unfold argsStage4
      rw [hcond, if_pos hadv]
      exact check_and_fill_args_eq_of_mem _ _ _ f hf i3
    unfold resolvedArgs
    rw [check_and_fill_args_eq_of_not_mem _ _ _ f hnm]
    exact e4
  · rw [if_neg hadv]
    have e4 : argsStage4 env cfg args f = Val.vnone := by
      unfold argsStage4
      rw [hcond, if_neg hadv]
      exact i3
    unfold resolvedArgs
    rw [check_and_fill_args_eq_of_not_mem _ _ _ f hnm]
    exact e4

/-! ### Claim theorems about `setup_args` -/

/-- Claim C2: with `eval_only` set (truthy) and `resume` unset, `setup_args`
fails its trailing precondition check; conversely it returns normally when
a resume path is present, or when `eval_only` is unset.  The hypotheses
record that neither the JSON overlay nor the defaults table supplies a
`resume` value or a truthy `eval_only` value, which is how the spec
describes the repository's defaults. -/
theorem setup_args_eval_only_requires_resume (env : DefaultsEnv)
    (cfg : Val → String → Val) (args : Args)
    (hrc : ∀ p, cfg p "resume" = Val.vnone)
    (hrd : ∀ d, env.defaultOf d "resume" = Val.vnone)
    (hec : ∀ p, truthy (cfg p "eval_only") = false)
    (hed : ∀ d, truthy (env.defaultOf d "eval_only") = false) :
    (truthy (args "eval_only") = true → args "resume" = Val.vnone →
      setup_args env cfg args =
        Except.error "Must provide a resume path if only evaluating") ∧
    (args "resume" ≠ Val.vnone →
      setup_args env cfg args = Except.ok (resolvedArgs env cfg args)) ∧
    (args "eval_only" = Val.vnone →
      setup_args env cfg args = Except.ok (resolvedArgs env cfg args)) := by
  refine ⟨?_, ?_, ?_⟩
  · intro hev hrn
    have hres : resolvedArgs env cfg args "resume" = Val.vnone := by
      rcases resolvedArgs_cases env cfg args "resume" with h | h | h
      · rw [h]; exact hrn
      · rw [h]; exact hrc _
      · rw [h]; exact hrd _
    have hevr : truthy (resolvedArgs env cfg args "eval_only") = true := by
      rw [resolvedArgs_eq_of_ne env cfg args _ (ne_vnone_of_truthy _ hev)]
      exact hev
    unfold setup_args
    rw [if_pos ⟨hevr, hres⟩]
  · intro hrn
    have hpr : resolvedArgs env cfg args "resume" = args "resume" :=
      resolvedArgs_eq_of_ne env cfg args _ hrn
    unfold setup_args
    rw [if_neg]
    intro hc
    exact hrn (hpr.symm.trans hc.2)
  · intro hev
    have hevr : truthy (resolvedArgs env cfg args "eval_only") = false := by
      rcases resolvedArgs_cases env cfg args "eval_only" with h | h | h
      · rw [h, hev]; rfl
      · rw [h]; exact hec _
      · rw [h]; exact hed _
    unfold setup_args
    rw [if_neg]
    intro hc
    rw [hevr] at hc
    exact Bool.noConfusion hc.1

/-- Witness for C2 at concrete inputs: evaluation-only without a resume
path fails the check. -/
theorem setup_args_eval_only_requires_resume_witness :
    setup_args envW cfgW argsEvalNoResume =
      Except.error "Must provide a resume path if only evaluating" :=
  (setup_args_eval_only_requires_resume envW cfgW argsEvalNoResume
    (fun _ => rfl) (fun _ => rfl) (fun _ => rfl) (fun _ => rfl)).1 rfl rfl

/-- Claim C3: `setup_args` fills unset fields of the general-config and
model-loading groups unconditionally, fills the training group only when
`eval_only` is falsy, and fills the adversarial/PGD group only when
`adv_train` or `adv_eval` is truthy.  Hypotheses: no JSON overlay is in
play and the three flag fields are explicitly set, so the branch
conditions equal their entry values. -/
theorem setup_args_group_conditional_filling (env : DefaultsEnv)
    (cfg : Val → String → Val) (args res : Args)
    (hok : setup_args env cfg args = Except.ok res)
    (hcp : args "config_path" = Val.vnone)
    (heo : args "eval_only" ≠ Val.vnone)
    (hat : args "adv_train" ≠ Val.vnone)
    (hae : args "adv_eval" ≠ Val.vnone) :
    (∀ f ∈ env.CONFIG_ARGS, args f = Val.vnone →
      res f = env.defaultOf (args "dataset") f) ∧
    (∀ f ∈ env.MODEL_LOADER_ARGS, args f = Val.vnone →
      res f = env.defaultOf (args "dataset") f) ∧
    (∀ f ∈ env.TRAINING_ARGS, f ∉ env.CONFIG_ARGS → f ∉ env.PGD_ARGS →
      f ∉ env.MODEL_LOADER_ARGS → args f = Val.vnone →
      res f = if truthy (args "eval_only") = true then Val.vnone
        else env.defaultOf (args "dataset") f) ∧
    (∀ f ∈ env.PGD_ARGS, f ∉ env.CONFIG_ARGS → f ∉ env.TRAINING_ARGS →
      f ∉ env.MODEL_LOADER_ARGS → args f = Val.vnone →
      res f =
        if (truthy (args "adv_train") || truthy (args "adv_eval")) = true
        then env.defaultOf (args "dataset") f else Val.vnone) := by
  have hres := setup_args_ok_eq env cfg args res hok
  subst hres
  refine ⟨?_, ?_, ?_, ?_⟩
  · intro f hf hn
    exact resolvedArgs_config_fill env cfg args f hcp hf hn
  · intro f hf hn
    exact resolvedArgs_model_loader_fill env cfg args f hcp hf hn
  · intro f hf hnc hnp hnm hn
    exact resolvedArgs_training_fill env cfg args f hcp heo hf hnc hnp hnm hn
  · intro f hf hnc hnt hnm hn
    exact resolvedArgs_pgd_fill env cfg args f hcp hat hae hf hnc hnt hnm hn

/-- Witness for C3 at concrete inputs: on a non-adversarial training run,
the unset training field `epochs` is filled with its default while the
unset PGD field `eps` stays unset. -/
theorem setup_args_group_conditional_filling_witness :
    setup_args envW cfgW argsTrainW =
      Except.ok (resolvedArgs envW cfgW argsTrainW) ∧
    resolvedArgs envW cfgW argsTrainW "epochs" = Val.vint 150 ∧
    resolvedArgs envW cfgW argsTrainW "eps" = Val.vnone := by
  have hok : setup_args envW cfgW argsTrainW =
      Except.ok (resolvedArgs envW cfgW argsTrainW) := rfl
  have h := setup_args_group_conditional_filling envW cfgW argsTrainW
    (resolvedArgs envW cfgW argsTrainW) hok rfl (by decide) (by decide)
    (by decide)
  refine ⟨hok, ?_, ?_⟩
  · have h2 := h.2.2.1 "epochs" (by decide) (by decide) (by decide)
      (by decide) rfl
    rw [h2]
    decide
  · have h3 := h.2.2.2 "eps" (by decide) (by decide) (by decide)
      (by decide) rfl
    rw [h3]
    decide

/-- Claim C4: `setup_args` never overwrites an explicitly provided field
(neither the JSON overlay nor the default fills), an unset field only ever
receives the config-file value or the dataset-specific default, and each
unset field of the unconditional groups is filled from the
dataset-specific default table. -/
theorem setup_args_preserves_explicit_fields (env : DefaultsEnv)
    (cfg : Val → String → Val) (args res : Args)
    (hok : setup_args env cfg args = Except.ok res) :
    (∀ f, args f ≠ Val.vnone → res f = args f) ∧
    (∀ f, res f = args f ∨ res f = cfg (args "config_path") f ∨
      res f = env.defaultOf (dsOf cfg args) f) ∧
    (∀ f, args "config_path" = Val.vnone →
      (f ∈ env.CONFIG_ARGS ∨ f ∈ env.MODEL_LOADER_ARGS) →
      args f = Val.vnone → res f = env.defaultOf (args "dataset") f) := by
  have hres := setup_args_ok_eq env cfg args res hok
  subst hres
  refine ⟨?_, ?_, ?_⟩
  · intro f hf
    exact resolvedArgs_eq_of_ne env cfg args f hf
  · intro f
    exact resolvedArgs_cases env cfg args f
  · rintro f hcp (hf | hf) hn
    · exact resolvedArgs_config_fill env cfg args f hcp hf hn
    · exact resolvedArgs_model_loader_fill env cfg args f hcp hf hn

/-- Witness for C4 at concrete inputs: the explicitly provided `lr` keeps
its value and the unset `out_dir` is filled from the default table. -/
theorem setup_args_preserves_explicit_fields_witness :
    resolvedArgs envW cfgW argsTrainW "lr" = Val.vint 3 ∧
    resolvedArgs envW cfgW argsTrainW "out_dir" = Val.vstr "/tmp/out" := by
  have h := setup_args_preserves_explicit_fields envW cfgW argsTrainW
    (resolvedArgs envW cfgW argsTrainW) rfl
  constructor
  · have h1 := h.1 "lr" (by decide)
    rw [h1]
    decide
  · have h2 := h.2.2 "out_dir" rfl (Or.inl (by decide)) rfl
    rw [h2]
    decide

/-! ### Claim theorems about `setup_store_with_metadata` -/

/-- Claim C5: one invocation appends exactly one row to a `metadata` table
of a newly created store rooted at the configured output directory under
the experiment name; the row carries every argument field plus a non-empty
version string, and the store handle is returned. -/
theorem setup_store_with_metadata_one_row (gitSha : Option String)
    (staticVersion : String) (args : Args)
    (hg : ∀ s, gitSha = some s → s ≠ "")
    (hs : staticVersion ≠ "") :
    ∃ st row,
      setup_store_with_metadata gitSha staticVersion args = (st, row) ∧
      st.out_dir = args "out_dir" ∧
      st.exp_name = args "exp_name" ∧
      st.tables = [("metadata",
        { schema := schema_from_dict row, rows := [row] })] ∧
      (∀ f, f ≠ "version" → row f = args f) ∧
      (∃ v, row "version" = Val.vstr v ∧ v ≠ "") := by
  refine ⟨(setup_store_with_metadata gitSha staticVersion args).1,
    (setup_store_with_metadata gitSha staticVersion args).2,
    rfl, rfl, rfl, rfl, ?_, ?_⟩
  · intro f hf
    show Args.setf args "version" _ f = args f
    unfold Args.setf
    rw [if_neg hf]
  · cases gitSha with
    | none => exact ⟨staticVersion, rfl, hs⟩
    | some sha => exact ⟨sha, rfl, hg sha rfl⟩

/-- Witness for C5 at concrete inputs. -/
theorem setup_store_with_metadata_one_row_witness :
    ∃ st row,
      setup_store_with_metadata (some "abc123") "1.0.1" argsEvalRun =
        (st, row) ∧
      st.out_dir = argsEvalRun "out_dir" ∧
      st.exp_name = argsEvalRun "exp_name" ∧
      st.tables = [("metadata",
        { schema := schema_from_dict row, rows := [row] })] ∧
      (∀ f, f ≠ "version" → row f = argsEvalRun f) ∧
      (∃ v, row "version" = Val.vstr v ∧ v ≠ "") :=
  setup_store_with_metadata_one_row (some "abc123") "1.0.1" argsEvalRun
    (fun s hsome => by injection hsome with h; rw [← h]; decide)
    (by decide)

/-- Claim C6: when no source-control metadata is discoverable the resolved
version falls back to the static package version string (no failure);
otherwise it is the current revision hash. -/
theorem setup_store_with_metadata_version_resolution
    (staticVersion : String) (args : Args) :
    (setup_store_with_metadata none staticVersion args).2 "version" =
      Val.vstr staticVersion ∧
    ∀ sha, (setup_store_with_metadata (some sha) staticVersion args).2
      "version" = Val.vstr sha :=
  ⟨rfl, fun _ => rfl⟩

/-- Claim C10: `setup_store_with_metadata` writes the resolved version into
the arguments object's `version` field and leaves every other field of the
arguments object unchanged. -/
theorem setup_store_with_metadata_mutates_only_version
    (gitSha : Option String) (staticVersion : String) (args : Args) :
    (setup_store_with_metadata gitSha staticVersion args).2 "version" =
      Val.vstr (match gitSha with
        | some sha => sha
        | none => staticVersion) ∧
    ∀ f, f ≠ "version" →
      (setup_store_with_metadata gitSha staticVersion args).2 f = args f := by
  constructor
  · cases gitSha <;> rfl
  · intro f hf
    show Args.setf args "version" _ f = args f
    unfold Args.setf
    rw [if_neg hf]

/-- Witness for C10 at concrete inputs. -/
theorem setup_store_with_metadata_mutates_only_version_witness :
    (setup_store_with_metadata (some "ab12") "1.0.1" argsTrainRun).2
      "version" = Val.vstr "ab12" ∧
    (setup_store_with_metadata (some "ab12") "1.0.1" argsTrainRun).2
      "task" = argsTrainRun "task" := by
  have h := setup_store_with_metadata_mutates_only_version (some "ab12")
    "1.0.1" argsTrainRun
  exact ⟨h.1, h.2 "task" (by decide)⟩

/-! ### Claim theorems about `main` -/

/-- Claim C1 (documents the code bug): on the unsupported task name
`rotated_cifar`, `main` raises `NotImplementedError` whose message is the
literal source string `No task {args.task}.` — the source line lacks the
f-string prefix, so the braces are not interpolated and the message does
not contain the offending task name. -/
theorem main_unsupported_task_literal_message :
    main envMainW argsTaskUnknown none =
      Except.error (PyError.notImplemented "No task \x7bargs.task\x7d.") ∧
    occursIn ("rotated_cifar".data) (("No task \x7bargs.task\x7d.").data) =
      false := by
  constructor
  · rfl
  · decide

/-- Claim C7: with `eval_only` truthy (and a supported task), `main` calls
the evaluation routine exactly once on the prefetched validation loader,
returns its result, and never calls the training routine (the event trace
is exactly one `evalModelCall`). -/
theorem main_eval_only_runs_eval_once (env : MainEnv) (args : Args)
    (store : Option Store) (ds : Dataset)
    (hds : datasetFor env args = some ds)
    (heo : truthy (args "eval_only") = true) :
    main env args store = Except.ok
      (RunResult.evalOutcome (env.eval_model args (usedModel env args ds)
        (loadersFor env args ds).2 store),
       [Event.evalModelCall (usedModel env args ds)
         (loadersFor env args ds).2]) := by
  unfold main
  rw [hds]
  simp only [heo]
  rfl

/-- Witness for C7 at concrete inputs: an evaluation-only `binary_mnist`
run returns the evaluation routine's result with exactly one evaluation
call and no training call. -/
theorem main_eval_only_runs_eval_once_witness :
    main envMainW argsEvalRun none = Except.ok
      (RunResult.evalOutcome 42,
       [Event.evalModelCall (Model.base 3) 111]) := by
  have h := main_eval_only_runs_eval_once envMainW argsEvalRun none
    (Dataset.binaryMNIST "/tmp/data" 0 1) rfl rfl
  exact h.trans rfl

/-- Claim C8: with `eval_only` falsy, `main` calls the training routine
once; the checkpoint passed is the restored one exactly when
`resume_optimizer` is truthy, and `None` otherwise (the restored optimizer
state is discarded). -/
theorem main_train_checkpoint_handling (env : MainEnv) (args : Args)
    (store : Option Store) (ds : Dataset)
    (hds : datasetFor env args = some ds)
    (heo : truthy (args "eval_only") = false) :
    main env args store = Except.ok
      (RunResult.trainedModel (env.train_model args (usedModel env args ds)
        (loadersFor env args ds) store
        (if truthy (args "resume_optimizer") = true
         then (restoredPair env args ds).2 else none)),
       [Event.trainModelCall (usedModel env args ds)
         (if truthy (args "resume_optimizer") = true
          then (restoredPair env args ds).2 else none)]) := by
  unfold main
  rw [hds]
  simp only [heo]
  rfl

/-- Witness for C8 at concrete inputs: a training run with
`resume_optimizer=False` passes `None` as the checkpoint. -/
theorem main_train_checkpoint_handling_witness :
    main envMainW argsTrainRun none = Except.ok
      (RunResult.trainedModel (Model.base 3),
       [Event.trainModelCall (Model.base 3) none]) := by
  have h := main_train_checkpoint_handling envMainW argsTrainRun none
    (Dataset.binaryMNIST "/tmp/data" 0 1) rfl rfl
  exact h.trans rfl

/-- Claim C9: every train/eval call `main` makes uses the restored model
unwrapped through its inner `module` attribute when that attribute exists,
and the restored model as-is otherwise. -/
theorem main_unwraps_wrapped_model (env : MainEnv) (args : Args)
    (store : Option Store) (ds : Dataset)
    (hds : datasetFor env args = some ds) :
    ∃ out, main env args store = Except.ok out ∧
      ∀ e ∈ out.2, Event.modelOf e =
        (if ((restoredPair env args ds).1).hasModuleAttr = true
         then ((restoredPair env args ds).1).moduleAttr
         else (restoredPair env args ds).1) := by
  by_cases heo : truthy (args "eval_only") = true
  · refine ⟨(RunResult.evalOutcome (env.eval_model args (usedModel env args ds)
        (loadersFor env args ds).2 store),
      [Event.evalModelCall (usedModel env args ds)
        (loadersFor env args ds).2]), ?_, ?_⟩
    · unfold main
      rw [hds]
      simp only [heo]
      rfl
    · intro e he
      rw [List.mem_singleton] at he
      subst he
      rfl
  · rw [Bool.not_eq_true] at heo
    refine ⟨(RunResult.trainedModel (env.train_model args
        (usedModel env args ds) (loadersFor env args ds) store
        (if truthy (args "resume_optimizer") = true
         then (restoredPair env args ds).2 else none)),
      [Event.trainModelCall (usedModel env args ds)
        (if truthy (args "resume_optimizer") = true
         then (restoredPair env args ds).2 else none)]), ?_, ?_⟩
    · unfold main
      rw [hds]
      simp only [heo]
      rfl
    · intro e he
      rw [List.mem_singleton] at he
      subst he
      rfl

/-- Witness for C9 at concrete inputs: the restored model is wrapped, and
every routine call receives the unwrapped inner module. -/
theorem main_unwraps_wrapped_model_witness :
    (restoredPair envMainW argsEvalRun
      (Dataset.binaryMNIST "/tmp/data" 0 1)).1 =
      Model.dataParallel (Model.base 3) ∧
    ∃ out, main envMainW argsEvalRun none = Except.ok out ∧
      ∀ e ∈ out.2, Event.modelOf e = Model.base 3 := by
  refine ⟨rfl, ?_⟩
  obtain ⟨out, h1, h2⟩ := main_unwraps_wrapped_model envMainW argsEvalRun
    none (Dataset.binaryMNIST "/tmp/data" 0 1) rfl
  exact ⟨out, h1, fun e he => (h2 e he).trans rfl⟩

end RobustnessRot
